import Mathlib

/-
  Verification of the dtest dependency-based test framework core
  (dtest/constants.py, dtest/test.py, dtest/result.py, dtest/policy.py,
  dtest/core.py).  Each definition is a shallow embedding of the
  corresponding Python function; theorems settle the specification
  claims about them.
-/

/-- Test states, from dtest/constants.py: RUNNING, FAIL, XFAIL, ERROR,
DEPFAIL, OK, UOK, SKIPPED.  A node whose result has not transitioned yet
has state None, modelled as the value none of Option St. -/
inductive St where
  | running
  | fail
  | xfail
  | error
  | depfail
  | ok
  | uok
  | skipped
deriving DecidableEq, Repr

/-- Exception types as seen by the result machinery: the assertion
exception (AssertionError) is distinguished, every other exception type
is identified by a numeric code.  The value none of Option Exc stands
for the Python value None (no exception raised); note that the raises
set of a test may itself contain None (see the raises decorator in
dtest/test.py). -/
inductive Exc where
  | assertionError
  | other (n : Nat)
deriving DecidableEq, Repr

namespace DTestBase

/-- Shallow embedding of DTestBase._depcheck (dtest/test.py lines
692-715).  The dependencies are given as the list of their states in
iteration order (dep.state may be None, hence Option St).  The first
component of the return value is the boolean returned by the Python
method; the second records the state transition the method issued on
the result of the node, if any (none means the state of the node was
left unchanged). -/
def depcheck : List (Option St) → Bool × Option St
  | [] => (true, none)
  | d :: rest =>
    if d = some St.fail ∨ d = some St.error ∨ d = some St.xfail ∨
        d = some St.depfail then
      (false, some St.depfail)
    else if d = some St.skipped then
      (false, some St.skipped)
    else if d ≠ some St.ok ∧ d ≠ some St.uok then
      (false, none)
    else
      depcheck rest

/-- A dependency state counting as failing in DTestBase._depcheck. -/
def isFailing (d : Option St) : Bool :=
  d == some St.fail || d == some St.error || d == some St.xfail ||
    d == some St.depfail

/-- A dependency state counting as resolved-positive (OK or UOK). -/
def isPositive (d : Option St) : Bool :=
  d == some St.ok || d == some St.uok

end DTestBase

namespace DTestResult

/-- Shallow embedding of the state computation of DTestResult._transition
when called with state=None (dtest/result.py lines 225-249).  The result
attribute of a DTestResult starts out as the Python value None and is set
to True or False by _set_result, so it is an Option Bool here; the Python
truthiness test if self.result treats None like False.  The error flag
and the expected-failure flag of the test select among the terminal
states. -/
def transitionState (res : Option Bool) (err : Bool) (expFail : Bool) : St :=
  if res = some true then
    if expFail then St.uok else St.ok
  else if err then
    St.error
  else if expFail then St.xfail
  else St.fail

/-- Shallow embedding of DTestResult._set_result (dtest/result.py lines
251-266), the single-result classification for a PRE or TEST context.
The excs argument is the expected-exception set of the context (empty
when no raises decorator was used; it may contain none, standing for
the Python value None listed in a raises declaration).  The exc argument
is the type of the raised exception, or none when the phase completed
cleanly.  Returns the pair (result, error) assigned to the result
object. -/
def setResult (excs : List (Option Exc)) (exc : Option Exc) : Bool × Bool :=
  if excs ≠ [] then
    (decide (exc ∈ excs),
     decide (exc ∉ excs) && decide (exc ≠ some Exc.assertionError))
  else
    (decide (exc = none),
     decide (exc ≠ none) && decide (exc ≠ some Exc.assertionError))

/-- Terminal state reached by a single-result node whose PRE/TEST phase
raised exc (none for clean completion) under expected-exception set excs
and expected-failure flag expFail: the composition of _set_result and the
terminal computation of _transition. -/
def stateAfter (excs : List (Option Exc)) (exc : Option Exc)
    (expFail : Bool) : St :=
  transitionState (some (setResult excs exc).1) (setResult excs exc).2 expFail

end DTestResult

namespace DTestResultMulti

/-- Success, failure, error and total counters of DTestResultMulti
(dtest/result.py lines 446-450). -/
structure MultiCounts where
  success : Nat
  failure : Nat
  error : Nat
  total : Nat
deriving DecidableEq, Repr

/-- Which counter a completed sub-invocation bumps, per the staged
computation in DTestResultMulti._set_result (dtest/result.py lines
464-476): with a non-empty expected-exception set, an exception in the
set is a success; with no declared set, no exception is a success; any
remaining exception other than the assertion exception is an error, and
the assertion exception is a failure. -/
inductive Counter where
  | success
  | failure
  | error
deriving DecidableEq, Repr

/-- Classification of one sub-invocation outcome, mirroring the
result-selection logic of DTestResultMulti._set_result. -/
def multiClassify (excs : List (Option Exc)) (exc : Option Exc) : Counter :=
  let firstPass : Option Counter :=
    if excs ≠ [] then
      if exc ∈ excs then some Counter.success else none
    else
      if exc = none then some Counter.success else none
  match firstPass with
  | some c => c
  | none =>
      if exc ≠ some Exc.assertionError then Counter.error
      else Counter.failure

/-- Counter update of DTestResultMulti._set_result: the selected counter
and the total counter are each incremented by one. -/
def bumpCounter (c : MultiCounts) : Counter → MultiCounts
  | Counter.success => { c with success := c.success + 1, total := c.total + 1 }
  | Counter.failure => { c with failure := c.failure + 1, total := c.total + 1 }
  | Counter.error => { c with error := c.error + 1, total := c.total + 1 }

/-- Aggregation policies map the four counters to the pair
(passed, is_error). -/
abbrev Policy := Nat → Nat → Nat → Nat → Bool × Bool

/-- Shallow embedding of basicPolicy (dtest/policy.py lines 34-41): all
sub-invocations must succeed, and any error makes the overall result an
error. -/
def basicPolicy : Policy := fun _tot _suc fail err =>
  (decide (fail = 0) && decide (err = 0), decide (err > 0))

/-- The default aggregation policy configured on every node: DTestBase
initialises the policy attribute to basicPolicy
(dtest/test.py line 163). -/
def dtestBasePolicyDefault : Policy := basicPolicy

/-- The attribute comp_result looked up on the node by
DTestResultMulti._set_result (dtest/result.py line 484).  Scanning the
whole source tree, no class defines an attribute or method of that name:
DTestBase.__getattr__ (dtest/test.py lines 171-181) therefore raises
AttributeError for it on every node that has not had it injected through
the attr decorator.  The absent attribute is modelled as none. -/
def dtestBaseCompResult : Option Policy := none

/-- Python exceptions escaping the embedded fragment. -/
inductive PyErr where
  | attributeError
deriving DecidableEq, Repr

/-- Shallow embedding of DTestResultMulti._set_result in a TEST context
(dtest/result.py lines 452-487): classify the sub-invocation outcome,
bump the selected counter together with the total counter, then evaluate
the comp_result attribute of the node on the four counters to obtain the
stored (passed, is_error) pair.  Since the attribute does not exist, the
final step raises AttributeError. -/
def multiSetResult (cnts : MultiCounts) (excs : List (Option Exc))
    (exc : Option Exc) : Except PyErr (MultiCounts × (Bool × Bool)) :=
  let cnts' := bumpCounter cnts (multiClassify excs exc)
  match dtestBaseCompResult with
  | none => Except.error PyErr.attributeError
  | some f =>
      Except.ok (cnts', f cnts'.total cnts'.success cnts'.failure cnts'.error)

end DTestResultMulti

namespace DTestFixtureTearDown

/-- Shallow embedding of DTestFixtureTearDown._depcheck (dtest/test.py
lines 888-920).  The partner argument is none when no partner is set,
and some p when a partner with state p (itself an Option St) is set.
The deps argument lists the states of all dependencies of the fixture in
iteration order; by the pairing rule a set partner appears among them.
As for DTestBase.depcheck, the return value pairs the boolean result
with the transition issued, if any. -/
def depcheckTD (partner : Option (Option St)) (deps : List (Option St)) :
    Bool × Option St :=
  match partner with
  | some p =>
    if p = some St.fail ∨ p = some St.xfail ∨ p = some St.error ∨
        p = some St.depfail then
      (false, some St.depfail)
    else if p = some St.skipped then
      (false, some St.skipped)
    else if deps.any (fun d => d == none || d == some St.running) then
      (false, none)
    else
      (true, none)
  | none =>
    if deps.any (fun d => d == none || d == some St.running) then
      (false, none)
    else
      (true, none)

end DTestFixtureTearDown

namespace DTestQueue

/-- Summary counters built by DTestQueue.run (dtest/core.py lines
442-467).  The threads entry is omitted: it is copied from the thread
high-water mark and plays no role in the counting loop. -/
structure Counts where
  ok : Nat
  uok : Nat
  skipped : Nat
  fail : Nat
  xfail : Nat
  error : Nat
  depfail : Nat
  total : Nat
deriving DecidableEq, Repr

/-- Initial value of the counts dictionary in DTestQueue.run. -/
def zeroCounts : Counts := ⟨0, 0, 0, 0, 0, 0, 0, 0⟩

/-- One iteration of the counting loop of DTestQueue.run (dtest/core.py
lines 454-466) over a result with final state r.1 of a node that is a
test iff r.2 (int(r.test) is 1 for a DTest, 0 for a fixture).  The
counts dictionary has no RUNNING key, so a result still in the RUNNING
state would raise KeyError, modelled by none. -/
def tally (c : Counts) (r : St × Bool) : Option Counts :=
  let w := if r.2 then 1 else 0
  let base : Option Counts :=
    match r.1 with
    | St.running => none
    | St.ok => some { c with ok := c.ok + w }
    | St.uok => some { c with uok := c.uok + w }
    | St.skipped => some { c with skipped := c.skipped + w }
    | St.fail => some { c with fail := c.fail + w }
    | St.xfail => some { c with xfail := c.xfail + w }
    | St.error => some { c with error := c.error + w }
    | St.depfail => some { c with depfail := c.depfail + w }
  base.map (fun c1 =>
    let c2 := { c1 with total := c1.total + w }
    if r.1 = St.uok then { c2 with ok := c2.ok + w }
    else if r.1 = St.xfail then { c2 with fail := c2.fail + w }
    else c2)

/-- End-of-run summary counts over the list of per-node results, in the
iteration order of the tests set of the queue. -/
def summaryCounts (rs : List (St × Bool)) : Option Counts :=
  rs.foldlM tally zeroCounts

/-- Number of tests among rs whose final state is s. -/
def wsum (rs : List (St × Bool)) (s : St) : Nat :=
  rs.countP (fun r => r.1 == s && r.2)

/-- Number of tests among rs (fixtures excluded). -/
def testCount (rs : List (St × Bool)) : Nat :=
  rs.countP (fun r => r.2)

end DTestQueue

/-- Observable events of one node execution by DTestBase._run
(dtest/test.py lines 502-578), in order: the transition to RUNNING, the
pre-fixture call, the resource collection, the test body trigger, the
post-fixture call, and the final transition to the terminal state. -/
inductive Ev where
  | transRunning
  | runPre
  | collectRes
  | runBody
  | runPost
  | transTerminal
deriving DecidableEq, Repr

/-- Shallow embedding of the phase structure of DTestBase._run
(dtest/test.py lines 502-578).  hasPre and hasPost say whether a pre
fixture and a post fixture are set; preFails whether the pre-fixture leaves the
result failed; resFails whether resource collection leaves the result
failed; bodyFails whether the test body fails.  The pre_status flag is
latched after the PRE phases and before the body, so bodyFails does not
influence which later phases run; the parameter is kept to let theorems
range over body outcomes. -/
def runTrace (hasPre preFails resFails bodyFails hasPost : Bool) : List Ev :=
  let preStatus1 := !(hasPre && preFails)
  let preStatus2 := preStatus1 && !resFails
  let _ := bodyFails
  [Ev.transRunning]
    ++ (if hasPre then [Ev.runPre] else [])
    ++ (if preStatus1 then [Ev.collectRes] else [])
    ++ (if preStatus2 then [Ev.runBody] else [])
    ++ (if preStatus2 && hasPost then [Ev.runPost] else [])
    ++ [Ev.transTerminal]

/-- Dependency-graph topology state for the edge-maintenance operations
of dtest/test.py.  Nodes are identified by numeric ids; live is the set
of node ids currently attached to test functions (promotion detaches the
old id and attaches the new one). -/
structure TopoGraph where
  live : Finset Nat
  deps : Nat → Finset Nat
  revdeps : Nat → Finset Nat
  partner : Nat → Option Nat

namespace TopoGraph

/-- Shallow embedding of the edge addition performed by the depends
decorator (dtest/test.py lines 1068-1096): dt gains every element of ds
as a dependency, and each element of ds gains dt as a dependent. -/
def dependsOp (g : TopoGraph) (dt : Nat) (ds : List Nat) : TopoGraph :=
  { g with
    deps := Function.update g.deps dt (g.deps dt ∪ ds.toFinset),
    revdeps := fun x =>
      if x ∈ ds then insert dt (g.revdeps x) else g.revdeps x }

/-- Shallow embedding of DTestFixture._set_partner (dtest/test.py lines
809-826): with a set setUp, first add the dependency through the depends
decorator, then record the partner. -/
def setPartnerOp (g : TopoGraph) (td : Nat) (su : Option Nat) : TopoGraph :=
  match su with
  | none => g
  | some s =>
      let g1 := dependsOp g td [s]
      { g1 with partner := Function.update g1.partner td (some s) }

/-- Shallow embedding of DTestBase.promote (dtest/test.py lines
408-444) in the case where a new instance is allocated: the new node
inherits the dependency and dependent sets of the old node, every
dependency replaces the old node by the new one in its dependent set,
every dependent replaces the old node by the new one in its dependency
set, and the old node is detached from the test function. -/
def promoteOp (g : TopoGraph) (old new : Nat) : TopoGraph :=
  let d := g.deps old
  let r := g.revdeps old
  { live := insert new (g.live.erase old),
    deps := fun x =>
      if x = new then d
      else if x ∈ r then insert new ((g.deps x).erase old)
      else g.deps x,
    revdeps := fun x =>
      if x = new then r
      else if x ∈ d then insert new ((g.revdeps x).erase old)
      else g.revdeps x,
    partner := fun x => if x = new then g.partner old else g.partner x }

/-- The topology invariant of the spec: among live nodes, A is a
dependency of B exactly when B is a dependent of A. -/
abbrev EdgeSym (g : TopoGraph) : Prop :=
  ∀ a ∈ g.live, ∀ b ∈ g.live, (a ∈ g.deps b ↔ b ∈ g.revdeps a)

/-- A node id unused by the live graph: not live and mentioned by no
live edge set. -/
abbrev FreshFor (g : TopoGraph) (new : Nat) : Prop :=
  new ∉ g.live ∧ ∀ x ∈ g.live, new ∉ g.deps x ∧ new ∉ g.revdeps x

end TopoGraph

/-- Node kinds for the skip-propagation machinery: DTest versus
DTestFixture.  Both DTestFixtureSetUp and DTestFixtureTearDown share the
DTestFixture overrides of _skipped and _notify_skipped
(dtest/test.py lines 828-859), so one fixture kind suffices here. -/
inductive NKind where
  | test
  | fixture
deriving DecidableEq, Repr

/-- Static shape of the dependency graph used by skip propagation:
dependency and dependent lists (in iteration order) and the optional
partner of each node. -/
structure SkipGraph where
  kind : Nat → NKind
  deps : Nat → List Nat
  revdeps : Nat → List Nat
  partner : Nat → Option Nat

/-- Mutable per-node state of a run (node.state, none when the node has
not transitioned yet). -/
abbrev StMap := Nat → Option St

/-- State update performed by the SKIPPED transition of
DTestBase._skipped. -/
def setSkipped (st : StMap) (n : Nat) : StMap :=
  fun m => if m = n then some St.skipped else st m

/-- Guard of DTestFixture._skipped (dtest/test.py lines 828-843): a
fixture only proceeds when every dependency other than its partner is
already SKIPPED; a plain test has no guard. -/
def skipGuard (g : SkipGraph) (st : StMap) (n : Nat) : Bool :=
  match g.kind n with
  | NKind.test => true
  | NKind.fixture =>
      (g.deps n).all (fun d =>
        g.partner n == some d || st d == some St.skipped)

/-- Guard of _notify_skipped (dtest/test.py lines 738-747 and 845-859):
a plain test ignores the notification; a fixture proceeds only when
every dependent is already SKIPPED. -/
def notifyGuard (g : SkipGraph) (st : StMap) (n : Nat) : Bool :=
  match g.kind n with
  | NKind.test => false
  | NKind.fixture => (g.revdeps n).all (fun d => st d == some St.skipped)

mutual

/-- Shallow embedding of DTestBase._skipped (dtest/test.py lines
717-736): when the node has no state yet, transition it to SKIPPED,
then propagate to every dependent through its (possibly overridden)
_skipped method, then notify every dependency through its
_notify_skipped method.  The fuel argument bounds the recursion depth;
the theorems below supply enough fuel for it never to run out. -/
def baseSkipped (g : SkipGraph) : Nat → StMap → Nat → StMap
  | 0, st, _ => st
  | fuel + 1, st, n =>
    if st n = none then
      goNotify g fuel (goSkip g fuel (setSkipped st n) (g.revdeps n))
        (g.deps n)
    else st
termination_by fuel _ _ => (fuel, 0, 0)

/-- Propagation loop over the dependents of a freshly skipped node: each
dependent receives a _skipped call, which for a fixture is guarded by
skipGuard and for a test goes straight to the base method. -/
def goSkip (g : SkipGraph) : Nat → StMap → List Nat → StMap
  | _, st, [] => st
  | fuel, st, d :: l =>
      goSkip g fuel
        (if skipGuard g st d then baseSkipped g fuel st d else st) l
termination_by fuel _ l => (fuel, 1, l.length)

/-- Notification loop over the dependencies of a freshly skipped node:
each dependency receives a _notify_skipped call; when the notify guard
passes, the fixture skips itself through the base method (the override
of DTestFixture._notify_skipped invokes the superclass _skipped
directly). -/
def goNotify (g : SkipGraph) : Nat → StMap → List Nat → StMap
  | _, st, [] => st
  | fuel, st, d :: l =>
      goNotify g fuel
        (if notifyGuard g st d then baseSkipped g fuel st d else st) l
termination_by fuel _ l => (fuel, 1, l.length)

end

/-- Entry point of a _skipped call on node n with dynamic dispatch: the
DTestFixture override applies its guard first, a plain test goes
straight to the base method. -/
def skipEntry (g : SkipGraph) (fuel : Nat) (st : StMap) (n : Nat) : StMap :=
  if skipGuard g st n then baseSkipped g fuel st n else st

/-- Entry point of a _notify_skipped call on node n. -/
def notifyEntry (g : SkipGraph) (fuel : Nat) (st : StMap) (n : Nat) : StMap :=
  if notifyGuard g st n then baseSkipped g fuel st n else st

/-- Number of nodes below the bound b that have no state yet. -/
def noneCount (st : StMap) : Nat → Nat
  | 0 => 0
  | b + 1 => noneCount st b + (if st b = none then 1 else 0)

/-- All edge targets of nodes below B stay below B. -/
abbrev DepBounded (g : SkipGraph) (B : Nat) : Prop :=
  ∀ m < B, (∀ d ∈ g.revdeps m, d < B) ∧ (∀ d ∈ g.deps m, d < B)

/-- Relation between a state map and its image under the skip
machinery: entries are unchanged except that nodes with no state may
have become SKIPPED. -/
def Evol (st st' : StMap) : Prop :=
  ∀ m, st' m = st m ∨ (st m = none ∧ st' m = some St.skipped)

/-- Chains of dependents that are plain tests with no state yet:
RegChain g st x d holds when d is reachable from x following dependent
edges through nodes that are tests with state none. -/
inductive RegChain (g : SkipGraph) (st : StMap) : Nat → Nat → Prop where
  | refl (x : Nat) : RegChain g st x x
  | step {x y z : Nat} : RegChain g st x y → z ∈ g.revdeps y →
      g.kind z = NKind.test → st z = none → RegChain g st x z

/-- Prune condition of the second pass of DTestQueue.run (dtest/core.py
lines 404-427): a node is marked for skipping when the skip predicate
matches, or when it is a fixture with no partner and no dependents, or
a fixture with a partner and exactly one dependent. -/
def pruneWillskip (g : SkipGraph) (skipAttr : Bool) (n : Nat) : Bool :=
  skipAttr ||
    (g.kind n == NKind.fixture &&
      (match g.partner n with
       | none => (g.revdeps n).length == 0
       | some _ => (g.revdeps n).length == 1))

/-- Effect of the second pass of DTestQueue.run on one node: when the
prune condition holds, the (dynamically dispatched) _skipped method of
the node is invoked; otherwise the state map is untouched. -/
def pruneNode (g : SkipGraph) (fuel : Nat) (st : StMap) (skipAttr : Bool)
    (n : Nat) : StMap :=
  if pruneWillskip g skipAttr n then skipEntry g fuel st n else st

/-- Membership in the waiting set built at dtest/core.py line 427: every
queued node whose state is not SKIPPED. -/
def inWaiting (st : StMap) (n : Nat) : Bool :=
  st n != some St.skipped

/-- State map of a run in which no node has transitioned yet. -/
def stNone : StMap := fun _ => none

/-- Example graph: tests 0 and 1, and a tear-down style fixture 2 that
depends on both (no partner).  Fixture 2 is a dependent of test 0. -/
def gFix : SkipGraph where
  kind := fun n => if n = 2 then NKind.fixture else NKind.test
  deps := fun n => if n = 2 then [0, 1] else []
  revdeps := fun n => if n = 0 then [2] else if n = 1 then [2] else []
  partner := fun _ => none

/-- Example graph: a chain of three tests, 1 depending on 0 and 2
depending on 1. -/
def gChain : SkipGraph where
  kind := fun _ => NKind.test
  deps := fun n => if n = 1 then [0] else if n = 2 then [1] else []
  revdeps := fun n => if n = 0 then [1] else if n = 1 then [2] else []
  partner := fun _ => none

/-- Example graph: fixture 0 with the single dependency 1 (a test), no
partner and no dependents, as produced for a module setUp whose module
contains one test but whose fixture has a dependency that is not
skipped. -/
def gPrune : SkipGraph where
  kind := fun n => if n = 0 then NKind.fixture else NKind.test
  deps := fun n => if n = 0 then [1] else []
  revdeps := fun _ => []
  partner := fun _ => none

/-- Example graph: fixture 0 with no dependencies and no dependents. -/
def gPruneFree : SkipGraph where
  kind := fun n => if n = 0 then NKind.fixture else NKind.test
  deps := fun _ => []
  revdeps := fun _ => []
  partner := fun _ => none

/-- Example topology: live nodes 0 and 1, node 1 depending on node 0. -/
def gTopo : TopoGraph where
  live := {0, 1}
  deps := fun n => if n = 1 then {0} else ∅
  revdeps := fun n => if n = 0 then {1} else ∅
  partner := fun _ => none

/-- Key propagation property between a state map and its image under
one call of the skip machinery: every node that the call transitioned
from no-state to SKIPPED has all of its test dependents that had no
state transitioned to SKIPPED as well by the end of the call. -/
def KProp (g : SkipGraph) (B : Nat) (st stFin : StMap) : Prop :=
  ∀ x, x < B → st x = none → stFin x = some St.skipped →
    ∀ y ∈ g.revdeps x, g.kind y = NKind.test → st y = none →
      stFin y = some St.skipped

/-
  Helper lemmas about the skip-propagation machinery.
-/

/-- A node that already has a state is left untouched by the base
_skipped method. -/
lemma baseSkipped_of_not_none (g : SkipGraph) (fuel : Nat) (st : StMap)
    (n : Nat) (h : st n ≠ none) : baseSkipped g fuel st n = st := by
  cases fuel with
  | zero => simp [baseSkipped]
  | succ f => simp [baseSkipped, h]

/-- Monotonicity bundle: a node state already set is preserved by every
function of the skip machinery. -/
lemma skipped_mono_all (g : SkipGraph) : ∀ fuel : Nat,
    (∀ st n m s, st m = some s → baseSkipped g fuel st n m = some s) ∧
    (∀ l st m s, st m = some s → goSkip g fuel st l m = some s) ∧
    (∀ l st m s, st m = some s → goNotify g fuel st l m = some s) := by
  intro fuel
  induction fuel with
  | zero =>
    have hb : ∀ st n m s, st m = some s →
        baseSkipped g 0 st n m = some s := by
      intro st n m s h; simpa [baseSkipped] using h
    refine ⟨hb, ?_, ?_⟩
    · intro l
      induction l with
      | nil => intro st m s h; simpa [goSkip] using h
      | cons d l ihl =>
        intro st m s h
        simp only [goSkip]
        apply ihl
        by_cases hg : skipGuard g st d
        · simpa [hg] using hb st d m s h
        · simpa [hg] using h
    · intro l
      induction l with
      | nil => intro st m s h; simpa [goNotify] using h
      | cons d l ihl =>
        intro st m s h
        simp only [goNotify]
        apply ihl
        by_cases hg : notifyGuard g st d
        · simpa [hg] using hb st d m s h
        · simpa [hg] using h
  | succ f ih =>
    obtain ⟨ihB, ihS, ihN⟩ := ih
    have hb : ∀ st n m s, st m = some s →
        baseSkipped g (f + 1) st n m = some s := by
      intro st n m s h
      simp only [baseSkipped]
      by_cases hn : st n = none
      · simp only [hn, if_pos rfl]
        apply ihN
        apply ihS
        have hmn : m ≠ n := by
          intro he; rw [he, hn] at h; exact Option.noConfusion h
        simpa [setSkipped, hmn] using h
      · simpa [hn] using h
    refine ⟨hb, ?_, ?_⟩
    · intro l
      induction l with
      | nil => intro st m s h; simpa [goSkip] using h
      | cons d l ihl =>
        intro st m s h
        simp only [goSkip]
        apply ihl
        by_cases hg : skipGuard g st d
        · simpa [hg] using hb st d m s h
        · simpa [hg] using h
    · intro l
      induction l with
      | nil => intro st m s h; simpa [goNotify] using h
      | cons d l ihl =>
        intro st m s h
        simp only [goNotify]
        apply ihl
        by_cases hg : notifyGuard g st d
        · simpa [hg] using hb st d m s h
        · simpa [hg] using h

/-- Change bundle: every entry of the state map is either untouched or
set to SKIPPED by the skip machinery. -/
lemma skipped_change_all (g : SkipGraph) : ∀ fuel : Nat,
    (∀ st n m, baseSkipped g fuel st n m = st m ∨
      baseSkipped g fuel st n m = some St.skipped) ∧
    (∀ l st m, goSkip g fuel st l m = st m ∨
      goSkip g fuel st l m = some St.skipped) ∧
    (∀ l st m, goNotify g fuel st l m = st m ∨
      goNotify g fuel st l m = some St.skipped) := by
  intro fuel
  induction fuel with
  | zero =>
    have hb : ∀ st n m, baseSkipped g 0 st n m = st m ∨
        baseSkipped g 0 st n m = some St.skipped := by
      intro st n m; left; simp [baseSkipped]
    refine ⟨hb, ?_, ?_⟩
    · intro l
      induction l with
      | nil => intro st m; left; simp [goSkip]
      | cons d l ihl =>
        intro st m
        simp only [goSkip]
        rcases ihl (if skipGuard g st d then baseSkipped g 0 st d else st) m
          with h | h
        · rw [h]
          by_cases hg : skipGuard g st d
          · simpa [hg] using hb st d m
          · simp [hg]
        · right; exact h
    · intro l
      induction l with
      | nil => intro st m; left; simp [goNotify]
      | cons d l ihl =>
        intro st m
        simp only [goNotify]
        rcases ihl (if notifyGuard g st d then baseSkipped g 0 st d else st) m
          with h | h
        · rw [h]
          by_cases hg : notifyGuard g st d
          · simpa [hg] using hb st d m
          · simp [hg]
        · right; exact h
  | succ f ih =>
    obtain ⟨ihB, ihS, ihN⟩ := ih
    have hb : ∀ st n m, baseSkipped g (f + 1) st n m = st m ∨
        baseSkipped g (f + 1) st n m = some St.skipped := by
      intro st n m
      simp only [baseSkipped]
      by_cases hn : st n = none
      · rw [if_pos hn]
        rcases ihN (g.deps n)
            (goSkip g f (setSkipped st n) (g.revdeps n)) m with h1 | h1
        · rw [h1]
          rcases ihS (g.revdeps n) (setSkipped st n) m with h2 | h2
          · rw [h2]
            by_cases hmn : m = n
            · right; simp [setSkipped, hmn]
            · left; simp [setSkipped, hmn]
          · right; exact h2
        · right; exact h1
      · left; simp [hn]
    refine ⟨hb, ?_, ?_⟩
    · intro l
      induction l with
      | nil => intro st m; left; simp [goSkip]
      | cons d l ihl =>
        intro st m
        simp only [goSkip]
        rcases ihl (if skipGuard g st d then baseSkipped g (f + 1) st d else st)
            m with h | h
        · rw [h]
          by_cases hg : skipGuard g st d
          · simpa [hg] using hb st d m
          · simp [hg]
        · right; exact h
    · intro l
      induction l with
      | nil => intro st m; left; simp [goNotify]
      | cons d l ihl =>
        intro st m
        simp only [goNotify]
        rcases ihl
            (if notifyGuard g st d then baseSkipped g (f + 1) st d else st)
            m with h | h
        · rw [h]
          by_cases hg : notifyGuard g st d
          · simpa [hg] using hb st d m
          · simp [hg]
        · right; exact h

/-- Evol between a state map and its image under any skip-machinery
function: derived from the monotonicity and change bundles. -/
lemma evol_of_mono_change (st st' : StMap)
    (hmono : ∀ m s, st m = some s → st' m = some s)
    (hch : ∀ m, st' m = st m ∨ st' m = some St.skipped) : Evol st st' := by
  intro m
  rcases hch m with h | h
  · exact Or.inl h
  · cases hst : st m with
    | none => exact Or.inr ⟨rfl, h⟩
    | some s => exact Or.inl (hmono m s hst)

/-- Evol for the base _skipped method. -/
lemma evol_baseSkipped (g : SkipGraph) (fuel : Nat) (st : StMap) (n : Nat) :
    Evol st (baseSkipped g fuel st n) :=
  evol_of_mono_change st _
    (fun m s h => ((skipped_mono_all g fuel).1 st n m s h))
    (fun m => ((skipped_change_all g fuel).1 st n m))

/-- Evol for the dependent-propagation loop. -/
lemma evol_goSkip (g : SkipGraph) (fuel : Nat) (st : StMap) (l : List Nat) :
    Evol st (goSkip g fuel st l) :=
  evol_of_mono_change st _
    (fun m s h => ((skipped_mono_all g fuel).2.1 l st m s h))
    (fun m => ((skipped_change_all g fuel).2.1 l st m))

/-- Evol for the dependency-notification loop. -/
lemma evol_goNotify (g : SkipGraph) (fuel : Nat) (st : StMap) (l : List Nat) :
    Evol st (goNotify g fuel st l) :=
  evol_of_mono_change st _
    (fun m s h => ((skipped_mono_all g fuel).2.2 l st m s h))
    (fun m => ((skipped_change_all g fuel).2.2 l st m))

/-- The none entries of two maps related by Evol are nested. -/
lemma evol_none (st st' : StMap) (h : Evol st st') (m : Nat)
    (h' : st' m = none) : st m = none := by
  rcases h m with he | ⟨hn, hs⟩
  · rw [← he, h']
  · rw [hs] at h'; exact Option.noConfusion h'

/-- noneCount only looks at entries below the bound. -/
lemma noneCount_congr (st st' : StMap) : ∀ B : Nat,
    (∀ i < B, st i = st' i) → noneCount st B = noneCount st' B := by
  intro B
  induction B with
  | zero => intro _; rfl
  | succ b ih =>
    intro h
    simp only [noneCount]
    rw [ih (fun i hi => h i (Nat.lt_succ_of_lt hi)),
      h b (Nat.lt_succ_self b)]

/-- noneCount does not grow along Evol. -/
lemma noneCount_le_of_evol (st st' : StMap) (h : Evol st st') :
    ∀ B : Nat, noneCount st' B ≤ noneCount st B := by
  intro B
  induction B with
  | zero => exact Nat.le_refl 0
  | succ b ih =>
    simp only [noneCount]
    apply Nat.add_le_add ih
    by_cases hb : st' b = none
    · rw [if_pos hb, if_pos (evol_none st st' h b hb)]
    · exact le_trans (by simp [hb]) (Nat.zero_le _)

/-- Setting a none entry below the bound to SKIPPED decrements
noneCount by exactly one. -/
lemma noneCount_setSkipped (st : StMap) (n : Nat) (hn : st n = none) :
    ∀ B : Nat, n < B → noneCount (setSkipped st n) B + 1 = noneCount st B := by
  intro B
  induction B with
  | zero => intro h; exact absurd h (Nat.not_lt_zero n)
  | succ b ih =>
    intro h
    simp only [noneCount]
    by_cases hnb : n = b
    · subst hnb
      have hpref : noneCount (setSkipped st n) n = noneCount st n := by
        apply noneCount_congr
        intro i hi
        have : i ≠ n := Nat.ne_of_lt hi
        simp [setSkipped, this]
      rw [hpref, hn]
      simp [setSkipped]
    · have hlt : n < b := by omega
      have hb : setSkipped st n b = st b := by
        have : b ≠ n := fun he => hnb he.symm
        simp [setSkipped, this]
      rw [hb]
      have := ih hlt
      omega

/-- A none entry below the bound makes noneCount positive. -/
lemma noneCount_pos (st : StMap) (n : Nat) (hn : st n = none) :
    ∀ B : Nat, n < B → 1 ≤ noneCount st B := by
  intro B
  induction B with
  | zero => intro h; exact absurd h (Nat.not_lt_zero n)
  | succ b ih =>
    intro h
    simp only [noneCount]
    by_cases hnb : n = b
    · subst hnb; simp [hn]
    · have hlt : n < b := by omega
      have := ih hlt
      omega

/-- With fuel available, the base _skipped method transitions a node
with no state to SKIPPED. -/
lemma baseSkipped_sets (g : SkipGraph) (fuel : Nat) (st : StMap) (n : Nat)
    (hfuel : 1 ≤ fuel) (hn : st n = none) :
    baseSkipped g fuel st n n = some St.skipped := by
  cases fuel with
  | zero => exact absurd hfuel (by omega)
  | succ f =>
    simp only [baseSkipped]
    rw [if_pos hn]
    apply (skipped_mono_all g f).2.2
    apply (skipped_mono_all g f).2.1
    simp [setSkipped]

/-- Propagation loop completeness: with enough fuel, every test in the
processed list whose state is none or SKIPPED ends up SKIPPED. -/
lemma goSkip_all (g : SkipGraph) (B fuel : Nat) : ∀ (l : List Nat)
    (st : StMap), noneCount st B ≤ fuel → (∀ y ∈ l, y < B) →
    ∀ y ∈ l, g.kind y = NKind.test →
      (st y = none ∨ st y = some St.skipped) →
      goSkip g fuel st l y = some St.skipped := by
  intro l
  induction l with
  | nil => intro st _ _ y hy; exact absurd hy (List.not_mem_nil y)
  | cons d l ihl =>
    intro st hfuel hbnd y hy hkind hst
    simp only [goSkip]
    rcases List.mem_cons.mp hy with hyd | hyl
    · subst hyd
      have hg : skipGuard g st y = true := by simp [skipGuard, hkind]
      rw [if_pos hg]
      rcases hst with hnone | hskip
      · have h1 : 1 ≤ fuel :=
          le_trans (noneCount_pos st y hnone B (hbnd y hy)) hfuel
        have hset : baseSkipped g fuel st y y = some St.skipped :=
          baseSkipped_sets g fuel st y h1 hnone
        exact (skipped_mono_all g fuel).2.1 l _ y St.skipped hset
      · have hne : st y ≠ none := by rw [hskip]; exact fun h => Option.noConfusion h
        rw [baseSkipped_of_not_none g fuel st y hne]
        exact (skipped_mono_all g fuel).2.1 l st y St.skipped hskip
    · have hevol : Evol st (if skipGuard g st d = true
          then baseSkipped g fuel st d else st) := by
        by_cases hg : skipGuard g st d
        · rw [if_pos hg]; exact evol_baseSkipped g fuel st d
        · rw [if_neg hg]; intro m; exact Or.inl rfl
      apply ihl
      · exact le_trans (noneCount_le_of_evol st _ hevol B) hfuel
      · intro z hz; exact hbnd z (List.mem_cons_of_mem d hz)
      · exact hyl
      · exact hkind
      · rcases hst with hnone | hskip
        · rcases hevol y with he | ⟨_, hs⟩
          · rw [he, hnone]; exact Or.inl rfl
          · exact Or.inr hs
        · right
          by_cases hg : skipGuard g st d
          · rw [if_pos hg]
            exact (skipped_mono_all g fuel).1 st d y St.skipped hskip
          · rw [if_neg hg]; exact hskip

/-- KProp holds vacuously when the call leaves the map unchanged. -/
lemma kprop_id (g : SkipGraph) (B : Nat) (st : StMap) : KProp g B st st := by
  intro x _ hxn hxs
  rw [hxn] at hxs
  exact Option.noConfusion hxs

/-- KProp composes along two stages when the stages only turn none
entries into SKIPPED and preserve set entries. -/
lemma kprop_comp (g : SkipGraph) (B : Nat) (st stA stFin : StMap)
    (hevol : Evol st stA)
    (hmono : ∀ m s, stA m = some s → stFin m = some s)
    (h1 : KProp g B st stA) (h2 : KProp g B stA stFin) :
    KProp g B st stFin := by
  intro x hx hxn hxs y hy hk hyn
  cases hA : stA x with
  | some s =>
    have hs : stA x = some St.skipped := by
      rcases hevol x with he | ⟨_, hsk⟩
      · rw [he, hxn] at hA; exact Option.noConfusion hA
      · exact hsk
    have hyA : stA y = some St.skipped := h1 x hx hxn hs y hy hk hyn
    exact hmono y St.skipped hyA
  | none =>
    rcases hevol y with he | ⟨_, hsk⟩
    · exact h2 x hx hA hxs y hy hk (he.trans hyn)
    · exact hmono y St.skipped hsk

/-- Key lemma bundle: KProp holds for every function of the skip
machinery, given enough fuel on a bounded graph and in-range nodes. -/
lemma kprop_all (g : SkipGraph) (B : Nat) (hB : DepBounded g B) :
    ∀ fuel : Nat,
    (∀ st n, n < B → noneCount st B ≤ fuel →
      KProp g B st (baseSkipped g fuel st n)) ∧
    (∀ l st, (∀ y ∈ l, y < B) → noneCount st B ≤ fuel →
      KProp g B st (goSkip g fuel st l)) ∧
    (∀ l st, (∀ y ∈ l, y < B) → noneCount st B ≤ fuel →
      KProp g B st (goNotify g fuel st l)) := by
  intro fuel
  induction fuel with
  | zero =>
    have hb : ∀ st n, n < B → noneCount st B ≤ 0 →
        KProp g B st (baseSkipped g 0 st n) := by
      intro st n _ _
      have h0 : baseSkipped g 0 st n = st := by simp [baseSkipped]
      rw [h0]; exact kprop_id g B st
    refine ⟨hb, ?_, ?_⟩
    · intro l
      induction l with
      | nil =>
        intro st _ _
        have h0 : goSkip g 0 st [] = st := by simp [goSkip]
        rw [h0]; exact kprop_id g B st
      | cons d l ihl =>
        intro st hl hf
        simp only [goSkip]
        have hstep : (if skipGuard g st d = true then baseSkipped g 0 st d
            else st) = st := by
          by_cases hg : skipGuard g st d <;> simp [hg, baseSkipped]
        rw [hstep]
        exact ihl st (fun y hy => hl y (List.mem_cons_of_mem d hy)) hf
    · intro l
      induction l with
      | nil =>
        intro st _ _
        have h0 : goNotify g 0 st [] = st := by simp [goNotify]
        rw [h0]; exact kprop_id g B st
      | cons d l ihl =>
        intro st hl hf
        simp only [goNotify]
        have hstep : (if notifyGuard g st d = true then baseSkipped g 0 st d
            else st) = st := by
          by_cases hg : notifyGuard g st d <;> simp [hg, baseSkipped]
        rw [hstep]
        exact ihl st (fun y hy => hl y (List.mem_cons_of_mem d hy)) hf
  | succ f ih =>
    obtain ⟨ihB, ihS, ihN⟩ := ih
    have hb : ∀ st n, n < B → noneCount st B ≤ f + 1 →
        KProp g B st (baseSkipped g (f + 1) st n) := by
      intro st n hnB hf
      by_cases hn : st n = none
      · have hunf : baseSkipped g (f + 1) st n =
            goNotify g f (goSkip g f (setSkipped st n) (g.revdeps n))
              (g.deps n) := by
          simp only [baseSkipped]; rw [if_pos hn]
        have hcnt1 : noneCount (setSkipped st n) B ≤ f := by
          have := noneCount_setSkipped st n hn B hnB
          omega
        intro x hx hxn hxs y hy hk hyn
        by_cases hxeq : x = n
        · subst hxeq
          have h2 : goSkip g f (setSkipped st x) (g.revdeps x) y =
              some St.skipped := by
            apply goSkip_all g B f (g.revdeps x) (setSkipped st x) hcnt1
              ((hB x hx).1) y hy hk
            by_cases hyx : y = x
            · subst hyx; right; simp [setSkipped]
            · left; simpa [setSkipped, hyx] using hyn
          rw [hunf]
          exact (skipped_mono_all g f).2.2 (g.deps x) _ y St.skipped h2
        · -- x was transitioned inside one of the two loops
          have hx1 : setSkipped st n x = none := by
            simpa [setSkipped, hxeq] using hxn
          have hk12 : KProp g B (setSkipped st n)
              (goSkip g f (setSkipped st n) (g.revdeps n)) :=
            ihS (g.revdeps n) (setSkipped st n) (hB n hnB).1 hcnt1
          have hcnt2 : noneCount
              (goSkip g f (setSkipped st n) (g.revdeps n)) B ≤ f :=
            le_trans (noneCount_le_of_evol _ _
              (evol_goSkip g f (setSkipped st n) (g.revdeps n)) B) hcnt1
          have hk23 : KProp g B
              (goSkip g f (setSkipped st n) (g.revdeps n))
              (goNotify g f (goSkip g f (setSkipped st n) (g.revdeps n))
                (g.deps n)) :=
            ihN (g.deps n) _ (hB n hnB).2 hcnt2
          have hk13 : KProp g B (setSkipped st n)
              (goNotify g f (goSkip g f (setSkipped st n) (g.revdeps n))
                (g.deps n)) :=
            kprop_comp g B _ _ _
              (evol_goSkip g f (setSkipped st n) (g.revdeps n))
              (fun m s h => (skipped_mono_all g f).2.2 (g.deps n) _ m s h)
              hk12 hk23
          rw [hunf]
          by_cases hyx : y = n
          · -- y is the node just set; it stays SKIPPED through the loops
            subst hyx
            have h1 : setSkipped st y y = some St.skipped := by
              simp [setSkipped]
            have h2 := (skipped_mono_all g f).2.1 (g.revdeps y)
              (setSkipped st y) y St.skipped h1
            exact (skipped_mono_all g f).2.2 (g.deps y) _ y St.skipped h2
          · have hy1 : setSkipped st n y = none := by
              simpa [setSkipped, hyx] using hyn
            rw [hunf] at hxs
            exact hk13 x hx hx1 hxs y hy hk hy1
      · have h0 : baseSkipped g (f + 1) st n = st := by
          simp only [baseSkipped]; rw [if_neg hn]
        rw [h0]; exact kprop_id g B st
    refine ⟨hb, ?_, ?_⟩
    · intro l
      induction l with
      | nil =>
        intro st _ _
        have h0 : goSkip g (f + 1) st [] = st := by simp [goSkip]
        rw [h0]; exact kprop_id g B st
      | cons d l ihl =>
        intro st hl hf
        simp only [goSkip]
        have hevol : Evol st (if skipGuard g st d = true
            then baseSkipped g (f + 1) st d else st) := by
          by_cases hg : skipGuard g st d
          · rw [if_pos hg]; exact evol_baseSkipped g (f + 1) st d
          · rw [if_neg hg]; intro m; exact Or.inl rfl
        apply kprop_comp g B st _ _ hevol
        · intro m s h
          exact (skipped_mono_all g (f + 1)).2.1 l _ m s h
        · by_cases hg : skipGuard g st d
          · rw [if_pos hg]
            exact hb st d (hl d (List.mem_cons_self d l)) hf
          · rw [if_neg hg]; exact kprop_id g B st
        · apply ihl
          · intro y hy; exact hl y (List.mem_cons_of_mem d hy)
          · exact le_trans (noneCount_le_of_evol st _ hevol B) hf
    · intro l
      induction l with
      | nil =>
        intro st _ _
        have h0 : goNotify g (f + 1) st [] = st := by simp [goNotify]
        rw [h0]; exact kprop_id g B st
      | cons d l ihl =>
        intro st hl hf
        simp only [goNotify]
        have hevol : Evol st (if notifyGuard g st d = true
            then baseSkipped g (f + 1) st d else st) := by
          by_cases hg : notifyGuard g st d
          · rw [if_pos hg]; exact evol_baseSkipped g (f + 1) st d
          · rw [if_neg hg]; intro m; exact Or.inl rfl
        apply kprop_comp g B st _ _ hevol
        · intro m s h
          exact (skipped_mono_all g (f + 1)).2.2 l _ m s h
        · by_cases hg : notifyGuard g st d
          · rw [if_pos hg]
            exact hb st d (hl d (List.mem_cons_self d l)) hf
          · rw [if_neg hg]; exact kprop_id g B st
        · apply ihl
          · intro y hy; exact hl y (List.mem_cons_of_mem d hy)
          · exact le_trans (noneCount_le_of_evol st _ hevol B) hf

/-- Transitive propagation: skipping a no-state node through the base
method also transitions every node reachable from it along dependent
edges through tests with no state. -/
lemma regChain_skipped (g : SkipGraph) (B fuel : Nat) (st : StMap) (n : Nat)
    (hB : DepBounded g B) (hf : noneCount st B ≤ fuel) (hn : n < B)
    (hnone : st n = none) :
    ∀ d, RegChain g st n d →
      d < B ∧ st d = none ∧ baseSkipped g fuel st n d = some St.skipped := by
  intro d hchain
  induction hchain with
  | refl =>
    have h1 : 1 ≤ fuel := le_trans (noneCount_pos st n hnone B hn) hf
    exact ⟨hn, hnone, baseSkipped_sets g fuel st n h1 hnone⟩
  | step hxy hmem hkind hznone ih =>
    obtain ⟨hyB, hynone, hyskip⟩ := ih
    refine ⟨(hB _ hyB).1 _ hmem, hznone, ?_⟩
    exact ((kprop_all g B hB fuel).1 st n hn hf) _ hyB hynone hyskip _ hmem
      hkind hznone

/-
  Claim theorems.
-/

/-- Failing states in boolean and propositional form. -/
lemma isFailing_iff (d : Option St) : DTestBase.isFailing d = true ↔
    (d = some St.fail ∨ d = some St.error ∨ d = some St.xfail ∨
      d = some St.depfail) := by
  simp [DTestBase.isFailing]
  tauto

/-- Positive states in boolean and propositional form. -/
lemma isPositive_iff (d : Option St) : DTestBase.isPositive d = true ↔
    (d = some St.ok ∨ d = some St.uok) := by
  simp [DTestBase.isPositive]

/-- The outcome of DTestBase._depcheck is decided by the first
dependency in iteration order that is not OK or UOK. -/
lemma depcheck_find (deps : List (Option St)) :
    DTestBase.depcheck deps =
      (match deps.find? (fun d => !DTestBase.isPositive d) with
        | none => (true, none)
        | some b => (false,
            if DTestBase.isFailing b = true then some St.depfail
            else if b = some St.skipped then some St.skipped
            else none)) := by
  induction deps with
  | nil => simp [DTestBase.depcheck]
  | cons d rest ih =>
    by_cases hp : DTestBase.isPositive d = true
    · have hcase : DTestBase.depcheck (d :: rest) = DTestBase.depcheck rest := by
        rcases (isPositive_iff d).mp hp with h | h <;> subst h <;>
          simp [DTestBase.depcheck]
      rw [hcase, ih]
      have hfind : (d :: rest).find? (fun d => !DTestBase.isPositive d) =
          rest.find? (fun d => !DTestBase.isPositive d) := by
        rw [List.find?_cons_of_neg]
        simp [hp]
      rw [hfind]
    · have hfind : (d :: rest).find? (fun d => !DTestBase.isPositive d) =
          some d := by
        rw [List.find?_cons_of_pos]
        simp [hp]
      rw [hfind]
      by_cases hf : DTestBase.isFailing d = true
      · have := (isFailing_iff d).mp hf
        have hcase : DTestBase.depcheck (d :: rest) =
            (false, some St.depfail) := by
          simp only [DTestBase.depcheck]
          rw [if_pos (by tauto)]
        rw [hcase]
        simp [hf]
      · by_cases hs : d = some St.skipped
        · subst hs
          have hcase : DTestBase.depcheck (some St.skipped :: rest) =
              (false, some St.skipped) := by
            simp [DTestBase.depcheck]
          rw [hcase]
          simp [hf]
        · have hnotfail : ¬(d = some St.fail ∨ d = some St.error ∨
              d = some St.xfail ∨ d = some St.depfail) := by
            intro h; exact hf ((isFailing_iff d).mpr h)
          have hnotpos : d ≠ some St.ok ∧ d ≠ some St.uok := by
            constructor <;> intro h <;>
              exact hp ((isPositive_iff d).mpr (by tauto))
          have hcase : DTestBase.depcheck (d :: rest) = (false, none) := by
            simp only [DTestBase.depcheck]
            rw [if_neg hnotfail, if_neg hs, if_pos hnotpos]
          rw [hcase]
          simp [hf, hs]

/-- C1 (corrected).  For a regular test node, _depcheck returns true
exactly when every dependency is OK or UOK; otherwise its outcome is
decided by the first dependency in iteration order whose state is not
OK or UOK: if that dependency is FAIL, XFAIL, ERROR or DEPFAIL the node
transitions to DEPFAIL and false is returned; if it is SKIPPED the node
transitions to SKIPPED and false is returned; if it is still pending
(None or RUNNING) false is returned with the node state unchanged, even
when a failing or skipped dependency occurs later in the iteration
order. -/
theorem depcheck_spec (deps : List (Option St)) :
    ((DTestBase.depcheck deps).1 = true ↔
      ∀ d ∈ deps, d = some St.ok ∨ d = some St.uok)
  ∧ DTestBase.depcheck deps =
      (match deps.find? (fun d => !DTestBase.isPositive d) with
        | none => (true, none)
        | some b => (false,
            if DTestBase.isFailing b = true then some St.depfail
            else if b = some St.skipped then some St.skipped
            else none)) := by
  refine ⟨?_, depcheck_find deps⟩
  rw [depcheck_find deps]
  cases hfind : deps.find? (fun d => !DTestBase.isPositive d) with
  | none =>
    simp only [List.find?_eq_none] at hfind
    constructor
    · intro _ d hd
      exact (isPositive_iff d).mp (by simpa using hfind d hd)
    · intro _; rfl
  | some b =>
    have hb := List.find?_some hfind
    have hmem := List.mem_of_find?_eq_some hfind
    constructor
    · intro h
      exfalso
      revert h
      by_cases hf : DTestBase.isFailing b = true <;>
        by_cases hs : b = some St.skipped <;> simp [hf, hs]
    · intro h
      exfalso
      have := h b hmem
      have hpos : DTestBase.isPositive b = true := (isPositive_iff b).mpr this
      simp [hpos] at hb

/-- C1 counterexample.  With dependency states [RUNNING, FAIL] in
iteration order, a failing dependency is present, yet _depcheck returns
false without issuing any transition (the pending dependency is reached
first), contradicting the claim that a failing dependency makes the
node transition to DEPFAIL. -/
theorem depcheck_counterexample :
    some St.fail ∈ [some St.running, some St.fail] ∧
    DTestBase.depcheck [some St.running, some St.fail] = (false, none) := by
  decide

/-- C2 (confirmed).  When _transition is called with no explicit state,
the terminal state is UOK (expected-failure set) or OK (not set) when
the recorded result is a pass; otherwise ERROR when the error flag is
set; otherwise XFAIL (expected-failure set) or FAIL (not set). -/
theorem transition_terminal_spec (res : Option Bool) (err expFail : Bool) :
    (res = some true →
      DTestResult.transitionState res err expFail =
        (if expFail then St.uok else St.ok))
  ∧ (res ≠ some true → err = true →
      DTestResult.transitionState res err expFail = St.error)
  ∧ (res ≠ some true → err = false →
      DTestResult.transitionState res err expFail =
        (if expFail then St.xfail else St.fail)) := by
  refine ⟨?_, ?_, ?_⟩
  · intro h; simp [DTestResult.transitionState, h]
  · intro h he; simp [DTestResult.transitionState, h, he]
  · intro h he; simp [DTestResult.transitionState, h, he]

/-- C2 witness. -/
theorem transition_terminal_witness :
    DTestResult.transitionState (some true) false true = St.uok ∧
    DTestResult.transitionState (some false) true false = St.error ∧
    DTestResult.transitionState none false true = St.xfail := by
  refine ⟨?_, ?_, ?_⟩
  · have h := (transition_terminal_spec (some true) false true).1 rfl
    simpa using h
  · exact (transition_terminal_spec (some false) true false).2.1
      (by simp) rfl
  · have h := (transition_terminal_spec none false true).2.2 (by simp) rfl
    simpa using h

/-- C3 (corrected).  For a single-result node: with a declared
expected-exception set, raising an exception in the set is a pass;
raising the assertion exception when it is not in the declared set is a
failure (FAIL or XFAIL); raising any other exception not in the
declared set is an error; completing cleanly is a pass when no set is
declared or when the set contains None, but is an ERROR when a set is
declared that does not contain None. -/
theorem set_result_spec (excs : List (Option Exc)) (exc : Option Exc)
    (expFail : Bool) :
    (excs ≠ [] → exc ∈ excs →
      DTestResult.stateAfter excs exc expFail =
        (if expFail then St.uok else St.ok))
  ∧ (exc = some Exc.assertionError → some Exc.assertionError ∉ excs →
      DTestResult.stateAfter excs exc expFail =
        (if expFail then St.xfail else St.fail))
  ∧ (∀ e : Exc, exc = some e → e ≠ Exc.assertionError → some e ∉ excs →
      DTestResult.stateAfter excs exc expFail = St.error)
  ∧ (exc = none → (excs = [] ∨ none ∈ excs) →
      DTestResult.stateAfter excs exc expFail =
        (if expFail then St.uok else St.ok))
  ∧ (exc = none → excs ≠ [] → none ∉ excs →
      DTestResult.stateAfter excs exc expFail = St.error) := by
  refine ⟨?_, ?_, ?_, ?_, ?_⟩
  · intro hne hmem
    simp [DTestResult.stateAfter, DTestResult.setResult,
      DTestResult.transitionState, hne, hmem]
  · intro hexc hnot
    subst hexc
    by_cases hne : excs = []
    · subst hne
      simp [DTestResult.stateAfter, DTestResult.setResult,
        DTestResult.transitionState]
    · simp [DTestResult.stateAfter, DTestResult.setResult,
        DTestResult.transitionState, hne, hnot]
  · intro e hexc hnasrt hnot
    subst hexc
    by_cases hne : excs = []
    · subst hne
      simp [DTestResult.stateAfter, DTestResult.setResult,
        DTestResult.transitionState, hnasrt]
    · simp [DTestResult.stateAfter, DTestResult.setResult,
        DTestResult.transitionState, hne, hnot, hnasrt]
  · intro hexc hor
    subst hexc
    rcases hor with hne | hmem
    · subst hne
      simp [DTestResult.stateAfter, DTestResult.setResult,
        DTestResult.transitionState]
    · have hne : excs ≠ [] := by
        intro h; subst h; exact absurd hmem (List.not_mem_nil none)
      simp [DTestResult.stateAfter, DTestResult.setResult,
        DTestResult.transitionState, hne, hmem]
  · intro hexc hne hnot
    subst hexc
    simp [DTestResult.stateAfter, DTestResult.setResult,
      DTestResult.transitionState, hne, hnot]

/-- C3 counterexample.  A test declaring the expected-exception set
consisting of one non-assertion exception type and completing cleanly
is classified as an ERROR, not as a pass (OK or UOK), contradicting the
claim that completing cleanly counts as a pass. -/
theorem set_result_counterexample :
    DTestResult.stateAfter [some (Exc.other 0)] none false = St.error ∧
    St.error ≠ St.ok ∧ St.error ≠ St.uok := by
  decide

/-- C3 witness. -/
theorem set_result_spec_witness :
    DTestResult.stateAfter [some (Exc.other 0)] (some (Exc.other 0)) false =
      St.ok ∧
    DTestResult.stateAfter [] (some Exc.assertionError) false = St.fail ∧
    DTestResult.stateAfter [] (some (Exc.other 1)) false = St.error ∧
    DTestResult.stateAfter [] none true = St.uok := by
  refine ⟨?_, ?_, ?_, ?_⟩
  · have h := (set_result_spec [some (Exc.other 0)] (some (Exc.other 0))
      false).1 (by simp) (by simp)
    simpa using h
  · have h := (set_result_spec [] (some Exc.assertionError) false).2.1 rfl
      (by simp)
    simpa using h
  · exact (set_result_spec [] (some (Exc.other 1)) false).2.2.1
      (Exc.other 1) rfl (by simp) (by simp)
  · have h := (set_result_spec [] none true).2.2.2.1 rfl (Or.inl rfl)
    simpa using h

/-- C4 (corrected).  The tear-down fixture readiness check first
examines the partner: a failing partner transitions the fixture to
DEPFAIL, a skipped partner to SKIPPED, both returning false.
Otherwise it returns true exactly when no dependency (the partner
included) is still pending (None or RUNNING), regardless of whether the
dependencies failed, erred or were skipped; in particular, with the
partner OK and the depended-on test failed but finished, the check
returns true, so tearDown still executes. -/
theorem depcheckTD_spec (partner : Option (Option St))
    (deps : List (Option St)) :
    (∀ p, partner = some p → DTestBase.isFailing p = true →
      DTestFixtureTearDown.depcheckTD partner deps = (false, some St.depfail))
  ∧ (∀ p, partner = some p → p = some St.skipped →
      DTestFixtureTearDown.depcheckTD partner deps = (false, some St.skipped))
  ∧ ((partner = none ∨ ∃ p, partner = some p ∧
        DTestBase.isFailing p = false ∧ p ≠ some St.skipped) →
      DTestFixtureTearDown.depcheckTD partner deps =
        (!deps.any (fun d => d == none || d == some St.running), none))
  ∧ (partner = some (some St.ok) → some St.fail ∈ deps →
      (∀ d ∈ deps, d ≠ none ∧ d ≠ some St.running) →
      DTestFixtureTearDown.depcheckTD partner deps = (true, none)) := by
  refine ⟨?_, ?_, ?_, ?_⟩
  · intro p hp hf
    subst hp
    have hprop := (isFailing_iff p).mp hf
    simp only [DTestFixtureTearDown.depcheckTD]
    rw [if_pos (by tauto)]
  · intro p hp hs
    subst hp; subst hs
    simp [DTestFixtureTearDown.depcheckTD]
  · intro hok
    rcases hok with hnone | ⟨p, hp, hf, hs⟩
    · subst hnone
      simp only [DTestFixtureTearDown.depcheckTD]
      by_cases hany : deps.any (fun d => d == none || d == some St.running)
      · rw [if_pos hany]; simp [hany]
      · rw [if_neg hany]; simp [hany]
    · subst hp
      have hnotfail : ¬(p = some St.fail ∨ p = some St.xfail ∨
          p = some St.error ∨ p = some St.depfail) := by
        intro h
        have : DTestBase.isFailing p = true := (isFailing_iff p).mpr (by tauto)
        rw [this] at hf
        exact Bool.noConfusion hf
      simp only [DTestFixtureTearDown.depcheckTD]
      rw [if_neg hnotfail, if_neg hs]
      by_cases hany : deps.any (fun d => d == none || d == some St.running)
      · rw [if_pos hany]; simp [hany]
      · rw [if_neg hany]; simp [hany]
  · intro hp hmem hall
    subst hp
    simp only [DTestFixtureTearDown.depcheckTD]
    rw [if_neg (by simp), if_neg (by simp)]
    rw [if_neg ?hany]
    case hany =>
      simp only [List.any_eq_true, not_exists]
      intro d
      rcases Decidable.em (d ∈ deps) with hd | hd
      · obtain ⟨h1, h2⟩ := hall d hd
        simp [hd, h1, h2]
      · simp [hd]

/-- C4 counterexample.  A tear-down fixture whose partner is still
RUNNING (its only dependency being the partner itself) is not ready:
the check returns false, although the claim asserts readiness once
every dependency other than the partner is non-pending and the partner
is neither failing nor skipped. -/
theorem depcheckTD_counterexample :
    DTestBase.isFailing (some St.running) = false ∧
    some St.running ≠ some St.skipped ∧
    DTestFixtureTearDown.depcheckTD (some (some St.running))
      [some St.running] = (false, none) := by
  decide

/-- C4 witness. -/
theorem depcheckTD_spec_witness :
    DTestFixtureTearDown.depcheckTD (some (some St.fail)) [some St.fail] =
      (false, some St.depfail) ∧
    DTestFixtureTearDown.depcheckTD (some (some St.skipped))
      [some St.skipped] = (false, some St.skipped) ∧
    DTestFixtureTearDown.depcheckTD (some (some St.ok))
      [some St.ok, some St.fail] = (true, none) := by
  refine ⟨?_, ?_, ?_⟩
  · exact (depcheckTD_spec (some (some St.fail)) [some St.fail]).1
      (some St.fail) rfl (by decide)
  · exact (depcheckTD_spec (some (some St.skipped)) [some St.skipped]).2.1
      (some St.skipped) rfl rfl
  · exact (depcheckTD_spec (some (some St.ok))
      [some St.ok, some St.fail]).2.2.2 rfl (by decide) (by decide)

/-- C6 (code bug).  For a multi-result node, _set_result does increment
exactly one of the success, failure and error counters together with the
total counter, but then evaluates the undefined comp_result attribute of
the node instead of its configured aggregation policy, raising
AttributeError: with the default policy in place, a clean first
sub-invocation would have produced the pair (true, false), yet the call
errors out. -/
theorem multi_set_result_bug :
    (∀ (cnts : DTestResultMulti.MultiCounts) (excs : List (Option Exc))
        (exc : Option Exc),
      DTestResultMulti.multiSetResult cnts excs exc =
        Except.error DTestResultMulti.PyErr.attributeError)
  ∧ (∀ (cnts : DTestResultMulti.MultiCounts)
        (c : DTestResultMulti.Counter),
      (DTestResultMulti.bumpCounter cnts c).total = cnts.total + 1 ∧
      (DTestResultMulti.bumpCounter cnts c).success +
          (DTestResultMulti.bumpCounter cnts c).failure +
          (DTestResultMulti.bumpCounter cnts c).error =
        cnts.success + cnts.failure + cnts.error + 1)
  ∧ DTestResultMulti.bumpCounter ⟨0, 0, 0, 0⟩
      (DTestResultMulti.multiClassify [] none) = ⟨1, 0, 0, 1⟩
  ∧ DTestResultMulti.dtestBasePolicyDefault 1 1 0 0 = (true, false) := by
  refine ⟨fun cnts excs exc => rfl, fun cnts c => ?_, by decide, by decide⟩
  cases c <;> simp [DTestResultMulti.bumpCounter] <;> omega

/-- Generalised accumulator form of the counting loop of
DTestQueue.run. -/
lemma summary_aux (rs : List (St × Bool)) :
    ∀ acc : DTestQueue.Counts, (∀ r ∈ rs, r.1 ≠ St.running) →
    rs.foldlM DTestQueue.tally acc = some
      { ok := acc.ok + DTestQueue.wsum rs St.ok + DTestQueue.wsum rs St.uok,
        uok := acc.uok + DTestQueue.wsum rs St.uok,
        skipped := acc.skipped + DTestQueue.wsum rs St.skipped,
        fail := acc.fail + DTestQueue.wsum rs St.fail +
          DTestQueue.wsum rs St.xfail,
        xfail := acc.xfail + DTestQueue.wsum rs St.xfail,
        error := acc.error + DTestQueue.wsum rs St.error,
        depfail := acc.depfail + DTestQueue.wsum rs St.depfail,
        total := acc.total + DTestQueue.testCount rs } := by
  induction rs with
  | nil =>
    intro acc _
    simp [DTestQueue.wsum, DTestQueue.testCount]
  | cons r rest ih =>
    intro acc h
    obtain ⟨s, t⟩ := r
    have hs : s ≠ St.running := by
      simpa using h (s, t) (List.mem_cons_self _ _)
    have hrest : ∀ r ∈ rest, r.1 ≠ St.running := fun r hr =>
      h r (List.mem_cons_of_mem _ hr)
    rw [List.foldlM_cons]
    cases s <;> cases t <;>
      first
      | exact absurd rfl hs
      | (simp only [DTestQueue.tally]
         simp
         rw [ih _ hrest]
         simp only [DTestQueue.wsum, DTestQueue.testCount, List.countP_cons,
           Option.some.injEq, DTestQueue.Counts.mk.injEq]
         simp
         try refine ⟨?_, ?_, ?_, ?_, ?_, ?_, ?_, ?_⟩
         all_goals omega)

/-- C7 (corrected).  In the end-of-run summary counts, a test with
final state UOK is counted as a pass (added to the OK count and flagged
separately as unexpected), but a test with final state XFAIL is counted
as a failure: it is added to the FAIL count (flagged separately as
expected) and not to the OK count. -/
theorem summary_counts_spec (rs : List (St × Bool))
    (h : ∀ r ∈ rs, r.1 ≠ St.running) :
    DTestQueue.summaryCounts rs = some
      { ok := DTestQueue.wsum rs St.ok + DTestQueue.wsum rs St.uok,
        uok := DTestQueue.wsum rs St.uok,
        skipped := DTestQueue.wsum rs St.skipped,
        fail := DTestQueue.wsum rs St.fail + DTestQueue.wsum rs St.xfail,
        xfail := DTestQueue.wsum rs St.xfail,
        error := DTestQueue.wsum rs St.error,
        depfail := DTestQueue.wsum rs St.depfail,
        total := DTestQueue.testCount rs } := by
  have haux := summary_aux rs DTestQueue.zeroCounts h
  simpa [DTestQueue.summaryCounts, DTestQueue.zeroCounts] using haux

/-- C7 counterexample.  A single test finishing in state XFAIL yields
summary counts with zero in the OK (pass) bucket and one in the FAIL
bucket, contradicting the claim that XFAIL is counted as a pass. -/
theorem summary_counts_counterexample :
    DTestQueue.summaryCounts [(St.xfail, true)] =
      some ⟨0, 0, 0, 1, 1, 0, 0, 1⟩ := by
  decide

/-- C7 witness. -/
theorem summary_counts_spec_witness :
    DTestQueue.summaryCounts [(St.uok, true)] =
      some ⟨1, 1, 0, 0, 0, 0, 0, 1⟩ := by
  have h := summary_counts_spec [(St.uok, true)] (by decide)
  simpa [DTestQueue.wsum, DTestQueue.testCount] using h

/-- C9 (corrected).  In _run, the post fixture (when set) executes
whenever the PRE phases succeeded (no pre-fixture failure and no
resource-collection failure), even when the test body raised or failed;
it does not execute when a PRE phase failed.  The final transition to
the terminal state is always the last event, so the post fixture runs
before it. -/
theorem run_trace_spec :
    ∀ hasPre preFails resFails bodyFails hasPost : Bool,
      (Ev.runPost ∈ runTrace hasPre preFails resFails bodyFails hasPost ↔
        hasPost = true ∧ (hasPre && preFails) = false ∧ resFails = false)
    ∧ (runTrace hasPre preFails resFails bodyFails hasPost).getLast? =
        some Ev.transTerminal
    ∧ (Ev.runBody ∈ runTrace hasPre preFails resFails bodyFails hasPost ↔
        (hasPre && preFails) = false ∧ resFails = false) := by
  decide

/-- C9 counterexample.  With a pre fixture that fails and a post
fixture set, the post fixture is not executed, contradicting the claim
that the post fixture runs unconditionally whenever one is set. -/
theorem run_trace_counterexample :
    Ev.runPost ∉ runTrace true true false false true := by
  decide

/-- C8 (confirmed).  The dependency/dependent symmetry among live nodes
is preserved by every edge addition: by the depends decorator, by
partner pairing, and by node promotion (given a live old node, a fresh
new id, and no self-edges on the promoted node). -/
theorem topo_sym_spec :
    (∀ (g : TopoGraph) (dt : Nat) (ds : List Nat), TopoGraph.EdgeSym g →
      dt ∈ g.live → TopoGraph.EdgeSym (TopoGraph.dependsOp g dt ds))
  ∧ (∀ (g : TopoGraph) (td : Nat) (su : Option Nat), TopoGraph.EdgeSym g →
      td ∈ g.live → TopoGraph.EdgeSym (TopoGraph.setPartnerOp g td su))
  ∧ (∀ (g : TopoGraph) (old nw : Nat), TopoGraph.EdgeSym g →
      old ∈ g.live → TopoGraph.FreshFor g nw →
      old ∉ g.deps old → old ∉ g.revdeps old →
      TopoGraph.EdgeSym (TopoGraph.promoteOp g old nw)) := by
  have hdep : ∀ (g : TopoGraph) (dt : Nat) (ds : List Nat),
      TopoGraph.EdgeSym g → dt ∈ g.live →
      TopoGraph.EdgeSym (TopoGraph.dependsOp g dt ds) := by
    intro g dt ds hsym hdt a ha b hb
    simp only [TopoGraph.dependsOp] at ha hb ⊢
    by_cases hbdt : b = dt
    · subst hbdt
      rw [Function.update_same]
      by_cases hads : a ∈ ds
      · simp [hads]
      · simp only [if_neg hads, Finset.mem_union, List.mem_toFinset, hads,
          or_false]
        exact hsym a ha b hb
    · rw [Function.update_noteq hbdt]
      by_cases hads : a ∈ ds
      · simp only [if_pos hads, Finset.mem_insert]
        constructor
        · intro h; exact Or.inr ((hsym a ha b hb).mp h)
        · intro h
          rcases h with h | h
          · exact absurd h hbdt
          · exact (hsym a ha b hb).mpr h
      · rw [if_neg hads]
        exact hsym a ha b hb
  refine ⟨hdep, ?_, ?_⟩
  · intro g td su hsym htd
    cases su with
    | none => simpa [TopoGraph.setPartnerOp] using hsym
    | some s =>
      have h1 := hdep g td [s] hsym htd
      intro a ha b hb
      exact h1 a ha b hb
  · intro g old nw hsym hold hfresh hso hsr
    obtain ⟨hnwlive, hnwedge⟩ := hfresh
    intro a ha b hb
    simp only [TopoGraph.promoteOp, Finset.mem_insert, Finset.mem_erase]
      at ha hb ⊢
    rcases ha with hanw | ⟨hane, halive⟩ <;>
      rcases hb with hbnw | ⟨hbne, hblive⟩
    · -- a = nw and b = nw
      rw [if_pos hbnw, if_pos hanw, hanw, hbnw]
      constructor
      · intro h; exact absurd h (hnwedge old hold).1
      · intro h; exact absurd h (hnwedge old hold).2
    · -- a = nw, b live
      have hbnw : ¬b = nw := fun h => hnwlive (h ▸ hblive)
      rw [if_neg hbnw, if_pos hanw, hanw]
      by_cases hbr : b ∈ g.revdeps old
      · rw [if_pos hbr]
        simp [hbr]
      · rw [if_neg hbr]
        constructor
        · intro h; exact absurd h (hnwedge b hblive).1
        · intro h; exact absurd h hbr
    · -- a live, b = nw
      have hanw : ¬a = nw := fun h => hnwlive (h ▸ halive)
      rw [if_pos hbnw, if_neg hanw, hbnw]
      by_cases had : a ∈ g.deps old
      · rw [if_pos had]
        simp [had]
      · rw [if_neg had]
        constructor
        · intro h; exact absurd h had
        · intro h; exact absurd h (hnwedge a halive).2
    · -- both live
      have hanw : a ≠ nw := fun h => hnwlive (h ▸ halive)
      have hbnw : b ≠ nw := fun h => hnwlive (h ▸ hblive)
      rw [if_neg hbnw, if_neg hanw]
      have hlhs : a ∈ (if b ∈ g.revdeps old
          then insert nw ((g.deps b).erase old) else g.deps b) ↔
          a ∈ g.deps b := by
        by_cases hbr : b ∈ g.revdeps old
        · rw [if_pos hbr]
          simp [Finset.mem_insert, Finset.mem_erase, hanw, hane]
        · rw [if_neg hbr]
      have hrhs : b ∈ (if a ∈ g.deps old
          then insert nw ((g.revdeps a).erase old) else g.revdeps a) ↔
          b ∈ g.revdeps a := by
        by_cases had : a ∈ g.deps old
        · rw [if_pos had]
          simp [Finset.mem_insert, Finset.mem_erase, hbnw, hbne]
        · rw [if_neg had]
      rw [hlhs, hrhs]
      exact hsym a halive b hblive

/-- C8 witness. -/
theorem topo_sym_spec_witness :
    TopoGraph.EdgeSym (TopoGraph.dependsOp gTopo 0 [1]) ∧
    TopoGraph.EdgeSym (TopoGraph.setPartnerOp gTopo 1 (some 0)) ∧
    TopoGraph.EdgeSym (TopoGraph.promoteOp gTopo 1 2) := by
  refine ⟨?_, ?_, ?_⟩
  · exact topo_sym_spec.1 gTopo 0 [1] (by decide) (by decide)
  · exact topo_sym_spec.2.1 gTopo 1 (some 0) (by decide) (by decide)
  · exact topo_sym_spec.2.2 gTopo 1 2 (by decide) (by decide) (by decide)
      (by decide) (by decide)

/-- C5 (corrected).  Skipping a not-yet-run node whose skip guard
passes (in particular any regular test) transitions it to SKIPPED and
recursively forces to SKIPPED every node reachable from it along
dependent chains of plain tests with no state; propagation into a
fixture is subject to the fixture guards: a fixture notified that a
dependent was skipped transitions itself to SKIPPED exactly when all
its dependents are SKIPPED, and a fixture on which _skipped is invoked
transitions only when every dependency other than its partner is
already SKIPPED (otherwise the state map is unchanged). -/
theorem skip_propagation_spec (g : SkipGraph) (B fuel : Nat) (st : StMap)
    (hB : DepBounded g B) :
    (∀ n, n < B → noneCount st B ≤ fuel → st n = none →
      skipGuard g st n = true →
      ∀ d, RegChain g st n d → skipEntry g fuel st n d = some St.skipped)
  ∧ (∀ n, g.kind n = NKind.fixture → st n = none → 1 ≤ fuel →
      (notifyEntry g fuel st n n = some St.skipped ↔
        ∀ d ∈ g.revdeps n, st d = some St.skipped))
  ∧ (∀ n, skipGuard g st n = false → skipEntry g fuel st n = st)
  ∧ (∀ n, g.kind n = NKind.fixture → skipGuard g st n = true →
      st n = none → 1 ≤ fuel → skipEntry g fuel st n n = some St.skipped) := by
  refine ⟨?_, ?_, ?_, ?_⟩
  · intro n hn hf hnone hguard d hchain
    have h := (regChain_skipped g B fuel st n hB hf hn hnone d hchain).2.2
    simpa [skipEntry, hguard] using h
  · intro n hkind hnone hf
    constructor
    · intro h
      by_cases hg : notifyGuard g st n = true
      · simpa [notifyGuard, hkind, List.all_eq_true] using hg
      · exfalso
        rw [notifyEntry, if_neg hg, hnone] at h
        exact Option.noConfusion h
    · intro h
      have hg : notifyGuard g st n = true := by
        simp only [notifyGuard, hkind, List.all_eq_true]
        intro d hd
        simp [h d hd]
      rw [notifyEntry, if_pos hg]
      exact baseSkipped_sets g fuel st n hf hnone
  · intro n hguard
    simp [skipEntry, hguard]
  · intro n _ hguard hnone hf
    rw [skipEntry, if_pos hguard]
    exact baseSkipped_sets g fuel st n hf hnone

/-- C5 counterexample.  In the graph gFix, the tear-down style fixture
2 is a direct dependent of test 0 and has no state; skipping test 0
transitions 0 to SKIPPED but leaves 2 with no state (its other
dependency 1 is not skipped), contradicting the claim that all
transitive dependents with state None are forced to SKIPPED. -/
theorem skip_propagation_counterexample :
    2 ∈ gFix.revdeps 0 ∧ stNone 2 = none ∧
    skipEntry gFix 3 stNone 0 0 = some St.skipped ∧
    skipEntry gFix 3 stNone 0 2 = none := by
  refine ⟨by decide, rfl, ?_, ?_⟩ <;>
    simp [skipEntry, skipGuard, gFix, baseSkipped, goSkip, goNotify,
      setSkipped, stNone, notifyGuard]

/-- C5 witness. -/
theorem skip_propagation_spec_witness :
    skipEntry gChain 3 stNone 0 2 = some St.skipped := by
  have hchain : RegChain gChain stNone 0 2 :=
    @RegChain.step gChain stNone 0 1 2
      (@RegChain.step gChain stNone 0 0 1 (RegChain.refl 0)
        (by decide) rfl rfl)
      (by decide) rfl rfl
  exact (skip_propagation_spec gChain 3 3 stNone (by decide)).1 0
    (by decide) (by decide) rfl (by decide) 2 hchain

/-- C10 (corrected).  At the start of a scheduling run, a fixture that
is not otherwise skipped is marked for pruning exactly when it has no
partner and no dependents, or a partner and exactly one dependent; for
such a node the guarded _skipped method is invoked, which forces the
fixture to SKIPPED (keeping it out of the waiting set) only when its
skip guard passes, i.e. when every dependency other than its partner is
already SKIPPED (in particular when it has no dependencies); when the
guard fails the fixture keeps no state and does enter the waiting
set. -/
theorem prune_spec (g : SkipGraph) (fuel : Nat) (st : StMap)
    (skipAttr : Bool) (n : Nat) :
    (pruneWillskip g false n = true ↔ (g.kind n = NKind.fixture ∧
      ((g.partner n = none ∧ (g.revdeps n).length = 0) ∨
       (∃ p, g.partner n = some p ∧ (g.revdeps n).length = 1))))
  ∧ (pruneWillskip g skipAttr n = true → skipGuard g st n = false →
      pruneNode g fuel st skipAttr n = st)
  ∧ (pruneWillskip g skipAttr n = true → skipGuard g st n = true →
      st n = none → 1 ≤ fuel →
      pruneNode g fuel st skipAttr n n = some St.skipped ∧
      inWaiting (pruneNode g fuel st skipAttr n) n = false)
  ∧ (pruneWillskip g skipAttr n = false →
      pruneNode g fuel st skipAttr n = st) := by
  refine ⟨?_, ?_, ?_, ?_⟩
  · cases hpart : g.partner n <;> cases hkind : g.kind n <;>
      simp [pruneWillskip, hpart, hkind]
  · intro hws hguard
    rw [pruneNode, if_pos hws]
    simp [skipEntry, hguard]
  · intro hws hguard hnone hf
    have hset : pruneNode g fuel st skipAttr n n = some St.skipped := by
      rw [pruneNode, if_pos hws, skipEntry, if_pos hguard]
      exact baseSkipped_sets g fuel st n hf hnone
    exact ⟨hset, by simp [inWaiting, hset]⟩
  · intro hws
    rw [pruneNode, if_neg (by simp [hws])]

/-- C10 counterexample.  Fixture 0 of gPrune (no partner, no
dependents) is marked for pruning, but its only dependency, test 1, is
not skipped, so the guarded _skipped call leaves it with no state and
it does enter the waiting set, contradicting the claim that pruned
fixtures are forced to SKIPPED and never enter the waiting set. -/
theorem prune_counterexample :
    pruneWillskip gPrune false 0 = true ∧
    gPrune.kind 0 = NKind.fixture ∧
    pruneNode gPrune 3 stNone false 0 0 = none ∧
    inWaiting (pruneNode gPrune 3 stNone false 0) 0 = true := by
  refine ⟨by decide, rfl, ?_, ?_⟩ <;>
    simp [pruneNode, pruneWillskip, skipEntry, skipGuard, gPrune, stNone,
      inWaiting]

/-- C10 witness. -/
theorem prune_spec_witness :
    pruneNode gPruneFree 1 stNone false 0 0 = some St.skipped ∧
    inWaiting (pruneNode gPruneFree 1 stNone false 0) 0 = false := by
  exact (prune_spec gPruneFree 1 stNone false 0).2.2.1 (by decide)
    (by decide) rfl (by decide)
